import Mathlib

/-!
Verification of the codeforces-reminder repository: a shallow embedding of
its state-reconciliation and persistence core (src/contest.rs, src/local.rs,
src/main.rs) together with proofs of the specified properties.
-/

set_option autoImplicit false

namespace CFReminder

/-- Enum `Phase` from src/contest.rs: possible phases of a Codeforces contest. -/
inductive Phase where
  | before
  | coding
  | pendingSystemTest
  | systemTest
  | finished
deriving DecidableEq, Repr

/-- Struct `Contest` from src/contest.rs: id, name, phase, optional start time
(seconds since epoch, i64 modelled as Int), optional description. -/
structure Contest where
  id : Nat
  name : String
  phase : Phase
  start_time_seconds : Option Int
  description : Option String
deriving DecidableEq, Repr

/-- The `PartialEq` impl for `Contest` (src/contest.rs lines 42-46):
comparison based on id only. -/
def Contest.beq (a b : Contest) : Bool :=
  a.id == b.id

/-- The `Hash` impl for `Contest` (src/contest.rs lines 33-37): only the id
is fed to the hasher, so for every hasher the result depends only on the id. -/
def Contest.hashWith {α : Type} (hasher : Nat → α) (c : Contest) : α :=
  hasher c.id

/-- Operation `HashSet::contains` specialised to `Contest`: membership decided by the
id-based `PartialEq`/`Hash` impls. Sets are modelled as lists. -/
def containsById (s : List Contest) (c : Contest) : Bool :=
  s.any (fun x => Contest.beq x c)

/-- Propositional membership-by-id, used to state set-algebra claims. -/
def memById (c : Contest) (s : List Contest) : Prop :=
  ∃ x ∈ s, x.id = c.id

instance memById.instDecidable (c : Contest) (s : List Contest) :
    Decidable (memById c s) :=
  inferInstanceAs (Decidable (∃ x ∈ s, x.id = c.id))

/-- From src/main.rs lines 36-40: `new_contests` is the remote set filtered to the
records not contained (by id) in the local set. -/
def newContests (loc rem : List Contest) : List Contest :=
  rem.filter (fun c => ! containsById loc c)

/-- From src/main.rs lines 42-45: `local_upcoming` starts as the local set filtered
to the records still contained (by id) in the remote set. -/
def keptContests (loc rem : List Contest) : List Contest :=
  loc.filter (fun c => containsById rem c)

/-- From src/main.rs lines 47-50: each new contest has 1800 seconds subtracted from
its start time (when present) before notification and persistence. -/
def adjustContest (c : Contest) : Contest :=
  { c with start_time_seconds := c.start_time_seconds.map (fun s => s - 1800) }

/-- From src/main.rs lines 42-53: the set handed to `save_contests_locally` is the
kept contests followed by the adjusted new contests (pushed in order). -/
def persistedSet (loc rem : List Contest) : List Contest :=
  keptContests loc rem ++ (newContests loc rem).map adjustContest

/-! ## Notification dispatch (src/main.rs, `create_reminder`) -/

/-- Outcome of one `create_reminder` call: either the contest lacked a start
time and only an anomaly line was logged (the dispatcher is never invoked), or
the record data was forwarded to the osascript dispatcher, possibly with a
failure line logged afterwards. -/
inductive NotifyResult where
  | anomaly (logMsg : String)
  | forwarded (id : Nat) (name : String) (startSeconds : Int) (logMsg : Option String)
deriving DecidableEq, Repr

/-- Does this outcome represent the dispatcher being invoked? -/
def NotifyResult.isForwarded : NotifyResult → Bool
  | .anomaly _ => false
  | .forwarded _ _ _ _ => true

/-- Failure line logged after the osascript invocation (src/main.rs lines
120-132): `none` when the command ran and reported success, otherwise the
message logged for a run error or a non-success exit status. -/
def dispatchLog (c : Contest) (cmdStatus : Option Bool) : Option String :=
  match cmdStatus with
  | none => some ("Failed to run osascript for contest " ++ c.name
      ++ ", id: " ++ toString c.id)
  | some true => none
  | some false => some ("Failed to add reminder for Contest " ++ c.name
      ++ ", id: " ++ toString c.id)

/-- Function `create_reminder` from src/main.rs lines 102-133. `cmdStatus` models the
osascript invocation: `none` when running the command itself errs, `some b`
when it runs and reports success `b`. A contest without a start time is logged
and never forwarded; otherwise its id, name and start seconds reach the
dispatcher, and a dispatcher failure is logged but not fatal. -/
def createReminder (c : Contest) (cmdStatus : Option Bool) : NotifyResult :=
  match c.start_time_seconds with
  | none =>
      .anomaly ("Contest without start time: " ++ toString c.id ++ ", " ++ c.name)
  | some start =>
      .forwarded c.id c.name start (dispatchLog c cmdStatus)

/-! ## Durable store: load (src/local.rs, `fetch_local_upcoming_contests`) -/

/-- Result of a load: either a contest set, or a fatal stop after the given
message was logged (`std::process::exit(1)` in the source). -/
inductive LoadOutcome where
  | ok (contests : List Contest)
  | fatal (loggedMsg : String)
deriving DecidableEq, Repr

/-- Function `fetch_local_upcoming_contests` from src/local.rs lines 20-48.
`fileExists` models `path.exists()`; `readResult` models
`fs::read_to_string` (`none` = I/O error); `parse` models
`serde_json::from_str` (`none` = parse error). When the file is absent the
function writes an initial empty file (best effort, failure only logged) and
returns the empty set; read and parse failures are fatal after logging. -/
def fetchLocalUpcomingContests (fileExists : Bool) (readResult : Option String)
    (parse : String → Option (List Contest)) : LoadOutcome :=
  if fileExists then
    match readResult with
    | none => .fatal "Failed to read local contests file"
    | some contents =>
        match parse contents with
        | none => .fatal "Failed to parse contests JSON"
        | some data => .ok data
  else
    .ok []

/-! ## Bounded log sink (src/local.rs, `log_error`) -/

/-- From src/local.rs line 11: `LOG_MAX_LINE_NUMBER = 1000`. -/
def LOG_MAX_LINE_NUMBER : Nat := 1000

/-- The log file: `none` when error_log.txt does not exist, otherwise its
content as a list of lines. -/
structure LogFS where
  file : Option (List String)
deriving DecidableEq, Repr

/-- Failure oracle for the file operations `log_error` performs:
`fs::read_to_string`, `fs::File::create`, `OpenOptions::open` (append), and
`write_all`. -/
structure LogFailures where
  readFails : Bool
  createFails : Bool
  openFails : Bool
  writeFails : Bool
deriving DecidableEq, Repr

/-- No file operation fails. -/
def LogFailures.none : LogFailures := ⟨false, false, false, false⟩

/-- Result of one `log_error` call: the updated file, or a panic (via
`.expect(...)`) with the given message, which terminates the process. -/
inductive LogResult where
  | ok (fs : LogFS)
  | panicked (msg : String)
deriving DecidableEq, Repr

/-- Whether the call panicked (terminated the process). -/
def LogResult.isPanicked : LogResult → Bool
  | .ok _ => false
  | .panicked _ => true

/-- Function `log_error` from src/local.rs lines 55-74. If the log file exists it is
read (panic on read failure); if its line count exceeds `LOG_MAX_LINE_NUMBER`
it is truncated via `File::create` (panic on failure); it is then opened for
append (panic on failure). If it does not exist it is created (panic on
failure). Finally the line `ts ++ ": " ++ msg` is appended (panic on write
failure). Every failure path is an `.expect`, i.e. a process-terminating
panic; the function never returns an error value. -/
def logError (fs : LogFS) (io : LogFailures) (ts msg : String) : LogResult :=
  let entry := ts ++ ": " ++ msg
  match fs.file with
  | some lines =>
      if io.readFails then .panicked "Failed to read log"
      else
        if lines.length > LOG_MAX_LINE_NUMBER then
          if io.createFails then .panicked "Could not create file"
          else if io.openFails then .panicked "Could not open file for appending"
          else if io.writeFails then .panicked "Could not write to file"
          else .ok ⟨some [entry]⟩
        else
          if io.openFails then .panicked "Could not open file for appending"
          else if io.writeFails then .panicked "Could not write to file"
          else .ok ⟨some (lines ++ [entry])⟩
  | none =>
      if io.createFails then .panicked "Could not create file"
      else if io.writeFails then .panicked "Could not write to file"
      else .ok ⟨some [entry]⟩

/-- One successful `log_error` call (all file operations succeed), seen as a
transformation of the log file. -/
def appendOne (fs : LogFS) (m : String) : LogFS :=
  match logError fs LogFailures.none "ts" m with
  | .ok fs1 => fs1
  | .panicked _ => fs

/-- Iterate `log_error` over a list of messages with all file operations
succeeding (the steady-state behaviour the log-bound claim is about). -/
def appendAll (fs : LogFS) (msgs : List String) : LogFS :=
  msgs.foldl appendOne fs

/-- Line count of the log file (0 when absent). -/
def LogFS.lineCount (fs : LogFS) : Nat :=
  match fs.file with
  | none => 0
  | some lines => lines.length

/-! ## Durable store: atomic save (src/local.rs, `save_contests_atomically`) -/

/-- On-disk state relevant to a save: the live contests.json content (`none`
when absent) and the temporary contests.tmp content. -/
structure SaveFS where
  live : Option String
  temp : Option String
deriving DecidableEq, Repr

/-- The fallible steps of `save_contests_atomically`, in program order:
`File::create(temp)`, `write_all`, `flush`, `sync_all`, `fs::rename`. -/
inductive SaveStep where
  | create
  | write
  | flush
  | sync
  | rename
deriving DecidableEq, Repr

/-- Function `save_contests_atomically` from src/local.rs lines 89-101, with `failAt`
the first step that fails (`none` = all succeed). The temporary file receives
the data; only the final rename touches the live path. Returns the resulting
filesystem and whether the save succeeded. -/
def saveContestsAtomically (fs : SaveFS) (data : String)
    (failAt : Option SaveStep) : SaveFS × Bool :=
  if failAt = some .create then (fs, false)
  else
    let fs1 : SaveFS := ⟨fs.live, some ""⟩
    if failAt = some .write then (fs1, false)
    else if failAt = some .flush then (fs1, false)
    else
      let fs2 : SaveFS := ⟨fs.live, some data⟩
      if failAt = some .sync then (fs2, false)
      else if failAt = some .rename then (fs2, false)
      else (⟨some data, Option.none⟩, true)

/-! ## Run orchestrator (src/main.rs, `main`) -/

/-- Result of `fetch_current_upcoming_contests` as seen by `main`: a contest
set, or one of the three fatal paths (network error, JSON parse error,
non-OK response status), each of which logs and exits 1. -/
inductive FetchOutcome where
  | ok (contests : List Contest)
  | netErr
  | parseErr
  | statusFailed
deriving DecidableEq, Repr

/-- Observable result of one run of `main`: the process exit code, the set
handed to persistence (`none` when the run died before reaching it),
whether the save succeeded, and the log lines emitted (in order). -/
structure CycleResult where
  exitCode : Nat
  persistedInput : Option (List Contest)
  saveSucceeded : Bool
  logs : List String
deriving DecidableEq, Repr

/-- Function `main` from src/main.rs lines 32-58. Load and fetch failures exit 1 after
logging. Otherwise the remote set is reconciled against the local set, each
new contest is adjusted by 1800 seconds and notified (notify failures only
logged), and the kept-plus-adjusted-new list is saved; a save failure is
logged, after which `main` returns normally — exit code 0. -/
def runMain (load : LoadOutcome) (fetch : FetchOutcome)
    (cmdStatus : Contest → Option Bool) (saveOk : Bool) : CycleResult :=
  match load with
  | .fatal msg => ⟨1, none, false, [msg]⟩
  | .ok loc =>
      match fetch with
      | .netErr => ⟨1, none, false, ["Could not retrieve online contest list"]⟩
      | .parseErr => ⟨1, none, false, ["Could not parse online contest JSON"]⟩
      | .statusFailed => ⟨1, none, false, ["Codeforces response status FAILED"]⟩
      | .ok rem =>
          let notifyLogs := (newContests loc rem).foldr
            (fun c acc =>
              match createReminder (adjustContest c) (cmdStatus c) with
              | .anomaly m => m :: acc
              | .forwarded _ _ _ (some m) => m :: acc
              | .forwarded _ _ _ none => acc)
            []
          let toSave := persistedSet loc rem
          if saveOk then
            ⟨0, some toSave, true, notifyLogs⟩
          else
            ⟨0, some toSave, false,
              notifyLogs ++ ["Failed to save local contests atomically"]⟩

/-! ## Sample data for concrete evaluations -/

/-- Sample contest with id 1. -/
def cA : Contest := ⟨1, "A", .before, some 100000, none⟩

/-- Sample contest with id 2. -/
def cB : Contest := ⟨2, "B", .before, some 200000, some "round"⟩

/-- Sample contest sharing id 2 with `cB` but with every other field changed. -/
def cB2 : Contest := ⟨2, "B renamed", .before, some 250000, some "other"⟩

/-- Sample contest with id 3. -/
def cC : Contest := ⟨3, "C", .before, some 300000, none⟩

/-- Sample contest with id 4 and no start time. -/
def cD : Contest := ⟨4, "D", .before, none, none⟩

/-! ## Helper lemmas -/

theorem containsById_iff (s : List Contest) (c : Contest) :
    containsById s c = true ↔ memById c s := by
  simp [containsById, memById, Contest.beq, List.any_eq_true]

theorem containsById_eq_false_iff (s : List Contest) (c : Contest) :
    containsById s c = false ↔ ¬ memById c s := by
  rw [← containsById_iff]
  cases h : containsById s c <;> simp

theorem containsById_of_mem {s : List Contest} {c : Contest} (h : c ∈ s) :
    containsById s c = true :=
  (containsById_iff s c).mpr ⟨c, h, rfl⟩

theorem containsById_congr_id (s : List Contest) {c c' : Contest}
    (h : c.id = c'.id) : containsById s c = containsById s c' := by
  simp [containsById, Contest.beq, h]

theorem adjustContest_id (c : Contest) : (adjustContest c).id = c.id := rfl

theorem mem_newContests {loc rem : List Contest} {c : Contest} :
    c ∈ newContests loc rem ↔ c ∈ rem ∧ containsById loc c = false := by
  simp [newContests, List.mem_filter]

theorem mem_keptContests {loc rem : List Contest} {c : Contest} :
    c ∈ keptContests loc rem ↔ c ∈ loc ∧ containsById rem c = true := by
  simp [keptContests, List.mem_filter]

theorem mem_persistedSet_contains {loc rem : List Contest} {x : Contest}
    (h : x ∈ persistedSet loc rem) : containsById rem x = true := by
  rcases List.mem_append.mp h with hk | hn
  · exact (mem_keptContests.mp hk).2
  · rcases List.mem_map.mp hn with ⟨n, hn', rfl⟩
    rw [containsById_congr_id rem (adjustContest_id n)]
    exact containsById_of_mem (mem_newContests.mp hn').1

theorem contains_persistedSet_of_mem_rem {loc rem : List Contest} {c : Contest}
    (h : c ∈ rem) : containsById (persistedSet loc rem) c = true := by
  rw [containsById_iff]
  cases hc : containsById loc c
  · refine ⟨adjustContest c, List.mem_append_right _ ?_, adjustContest_id c⟩
    exact List.mem_map.mpr ⟨c, mem_newContests.mpr ⟨h, hc⟩, rfl⟩
  · rcases (containsById_iff loc c).mp hc with ⟨x, hx, hxid⟩
    refine ⟨x, List.mem_append_left _ ?_, hxid⟩
    exact mem_keptContests.mpr ⟨hx, (containsById_iff rem x).mpr ⟨c, h, hxid.symm⟩⟩

theorem memById_persistedSet_sub {loc rem : List Contest} {c : Contest}
    (h : memById c (persistedSet loc rem)) : memById c rem := by
  rcases h with ⟨x, hx, hxid⟩
  rcases (containsById_iff rem x).mp (mem_persistedSet_contains hx) with ⟨y, hy, hyid⟩
  exact ⟨y, hy, hyid.trans hxid⟩

theorem containsById_eq_any_ids (s : List Contest) (c : Contest) :
    containsById s c = (s.map Contest.id).any (fun n => n == c.id) := by
  induction s with
  | nil => rfl
  | cons x xs ih => simp [containsById, Contest.beq, List.any_cons] at ih ⊢; rw [ih]

theorem newContests_congr_ids {loc loc' : List Contest} (rem : List Contest)
    (h : loc.map Contest.id = loc'.map Contest.id) :
    newContests loc rem = newContests loc' rem := by
  unfold newContests
  apply List.filter_congr
  intro c _
  rw [containsById_eq_any_ids, containsById_eq_any_ids, h]

theorem map_id_keptContests (loc rem : List Contest) :
    (keptContests loc rem).map Contest.id
      = (loc.map Contest.id).filter
          (fun i => (rem.map Contest.id).any (fun n => n == i)) := by
  induction loc with
  | nil => rfl
  | cons x xs ih =>
      show ((x :: xs).filter (fun c => containsById rem c)).map Contest.id = _
      rw [List.map_cons, List.filter_cons, List.filter_cons,
        containsById_eq_any_ids rem x]
      by_cases h : ((rem.map Contest.id).any (fun n => n == x.id)) = true
      · simp only [h, if_true, List.map_cons]
        exact congrArg (x.id :: ·) ih
      · simp only [Bool.not_eq_true] at h
        simp only [h, Bool.false_eq_true, if_false]
        exact ih

/-! ## Claim theorems -/

/-- C1: reconciliation classifies the remote records so that `new` is exactly
remote minus local and `kept` is exactly local intersect remote (membership by
id); every record whose id is in local but not in remote is absent from `new`,
from `kept`, and from the set passed to persistence. -/
theorem c1_reconciliation_classification (loc rem : List Contest) :
    (∀ c, c ∈ newContests loc rem ↔ c ∈ rem ∧ ¬ memById c loc) ∧
    (∀ c, c ∈ keptContests loc rem ↔ c ∈ loc ∧ memById c rem) ∧
    (∀ e, memById e loc → ¬ memById e rem →
      ¬ memById e (newContests loc rem) ∧ ¬ memById e (keptContests loc rem) ∧
      ¬ memById e (persistedSet loc rem)) := by
  refine ⟨fun c => ?_, fun c => ?_, fun e _ hr => ?_⟩
  · rw [mem_newContests, containsById_eq_false_iff]
  · rw [mem_keptContests, containsById_iff]
  · refine ⟨fun hmem => hr ?_, fun hmem => hr ?_, fun hmem => hr ?_⟩
    · rcases hmem with ⟨x, hx, hxid⟩
      exact ⟨x, (mem_newContests.mp hx).1, hxid⟩
    · rcases hmem with ⟨x, hx, hxid⟩
      rcases (containsById_iff rem x).mp (mem_keptContests.mp hx).2 with ⟨y, hy, hyid⟩
      exact ⟨y, hy, hyid.trans hxid⟩
    · exact memById_persistedSet_sub hmem

/-- Witness for C1: with local = [cA, cB] and remote = [cB2, cC], the expired
record cA (id 1 is local but not remote) is absent by id from new, kept, and
the persisted set. -/
theorem c1_witness :
    ¬ memById cA (newContests [cA, cB] [cB2, cC]) ∧
    ¬ memById cA (keptContests [cA, cB] [cB2, cC]) ∧
    ¬ memById cA (persistedSet [cA, cB] [cB2, cC]) :=
  (c1_reconciliation_classification [cA, cB] [cB2, cC]).2.2 cA
    (by decide) (by decide)

/-- C2: reconciliation is idempotent — reconciling a remote set against a
local set equal to the previous cycle's persisted output yields an empty
`new` and a `kept` equal to that local set. -/
theorem c2_idempotence (loc rem : List Contest) :
    newContests (persistedSet loc rem) rem = [] ∧
    keptContests (persistedSet loc rem) rem = persistedSet loc rem := by
  constructor
  · apply List.filter_eq_nil_iff.mpr
    intro c hc
    simp [contains_persistedSet_of_mem_rem hc]
  · apply List.filter_eq_self.mpr
    intro x hx
    exact mem_persistedSet_contains hx

/-- C3: equality and hashing of `Contest` are defined solely by `id`: same id
means equal (and equal hash under every hasher) regardless of the other
fields, different ids are never equal; consequently replacing a local record
by one with the same id and different other fields changes neither the `new`
classification nor the ids of the `kept` classification. -/
theorem c3_identity_by_id :
    (∀ a b : Contest, a.id = b.id →
      Contest.beq a b = true ∧
        ∀ (α : Type) (hasher : Nat → α),
          Contest.hashWith hasher a = Contest.hashWith hasher b) ∧
    (∀ a b : Contest, a.id ≠ b.id → Contest.beq a b = false) ∧
    (∀ loc loc' rem : List Contest, loc.map Contest.id = loc'.map Contest.id →
      newContests loc rem = newContests loc' rem ∧
        (keptContests loc rem).map Contest.id
          = (keptContests loc' rem).map Contest.id) := by
  refine ⟨fun a b h => ⟨?_, fun α hasher => ?_⟩, fun a b h => ?_, fun loc loc' rem h => ⟨?_, ?_⟩⟩
  · simp [Contest.beq, h]
  · simp [Contest.hashWith, h]
  · simp [Contest.beq, h]
  · exact newContests_congr_ids rem h
  · rw [map_id_keptContests, map_id_keptContests, h]

/-- Witness for C3: cB and cB2 share id 2 but differ in every other field and
compare equal; cB and cA have different ids and compare unequal; swapping cB
for cB2 in the local set leaves the `new` classification unchanged. -/
theorem c3_witness :
    Contest.beq cB cB2 = true ∧
    Contest.beq cB cA = false ∧
    newContests [cA, cB] [cB2, cC] = newContests [cA, cB2] [cB2, cC] :=
  ⟨(c3_identity_by_id.1 cB cB2 (by decide)).1,
   c3_identity_by_id.2.1 cB cA (by decide),
   (c3_identity_by_id.2.2 [cA, cB] [cA, cB2] [cB2, cC] (by decide)).1⟩

/-- C4: save is atomic — if any step before the final rename fails
(temporary-file creation, write, flush, sync), the live file content is
exactly its pre-save content and the save reports failure; with no failure
the live file holds the complete new encoding. -/
theorem c4_atomic_save (fs : SaveFS) (data : String) (failAt : Option SaveStep) :
    (failAt = some .create ∨ failAt = some .write ∨ failAt = some .flush ∨
        failAt = some .sync →
      (saveContestsAtomically fs data failAt).1.live = fs.live ∧
        (saveContestsAtomically fs data failAt).2 = false) ∧
    (failAt = none →
      (saveContestsAtomically fs data failAt).1.live = some data ∧
        (saveContestsAtomically fs data failAt).2 = true) := by
  constructor
  · rintro (rfl | rfl | rfl | rfl) <;> simp [saveContestsAtomically]
  · rintro rfl
    simp [saveContestsAtomically]

/-- Witness for C4: a flush failure during a save of new data over a live file
holding "old" leaves the live file holding "old" and reports failure. -/
theorem c4_witness :
    (saveContestsAtomically ⟨some "old", none⟩ "newdata" (some .flush)).1.live
        = some "old" ∧
      (saveContestsAtomically ⟨some "old", none⟩ "newdata" (some .flush)).2
        = false :=
  (c4_atomic_save ⟨some "old", none⟩ "newdata" (some .flush)).1
    (Or.inr (Or.inr (Or.inl rfl)))

/-- C5: load returns the empty set when no state file exists; when the file
exists but reading or parsing fails, load is fatal — it stops with the logged
failure message rather than returning an empty set. -/
theorem c5_load_semantics (readResult : Option String)
    (parse : String → Option (List Contest)) :
    fetchLocalUpcomingContests false readResult parse = .ok [] ∧
    fetchLocalUpcomingContests true none parse
      = .fatal "Failed to read local contests file" ∧
    (∀ s, parse s = none →
      fetchLocalUpcomingContests true (some s) parse
        = .fatal "Failed to parse contests JSON") := by
  refine ⟨rfl, rfl, fun s hs => ?_⟩
  simp [fetchLocalUpcomingContests, hs]

/-- Witness for C5: a file whose content fails to parse makes the load fatal
with the parse-failure message. -/
theorem c5_witness :
    fetchLocalUpcomingContests true (some "garbage") (fun _ => none)
      = .fatal "Failed to parse contests JSON" :=
  (c5_load_semantics none (fun _ => none)).2.2 "garbage" rfl

/-- C9: every new record with a start time has exactly 1800 seconds
subtracted before it reaches the dispatcher, with its id unchanged; a new
record with no start time is never forwarded and is logged as an anomaly. -/
theorem c9_lead_time (c : Contest) :
    (∀ t, c.start_time_seconds = some t →
      (adjustContest c).id = c.id ∧
        (adjustContest c).start_time_seconds = some (t - 1800) ∧
        ∀ st, createReminder (adjustContest c) st
          = .forwarded c.id c.name (t - 1800) (dispatchLog c st)) ∧
    (c.start_time_seconds = none →
      ∀ st, createReminder (adjustContest c) st
        = .anomaly ("Contest without start time: "
            ++ toString c.id ++ ", " ++ c.name)) := by
  constructor
  · intro t ht
    refine ⟨rfl, by simp [adjustContest, ht], fun st => ?_⟩
    rcases st with _ | b
    · simp [createReminder, dispatchLog, adjustContest, ht]
    · cases b <;> simp [createReminder, dispatchLog, adjustContest, ht]
  · intro h st
    simp [createReminder, adjustContest, h]

/-- Witness for C9: cD (no start time) is logged as an anomaly and never
forwarded; cA (start time 100000) is forwarded with start 100000 − 1800 and
its original id and name. -/
theorem c9_witness :
    createReminder (adjustContest cD) (some true)
        = .anomaly ("Contest without start time: "
            ++ toString cD.id ++ ", " ++ cD.name) ∧
      createReminder (adjustContest cA) (some true)
        = .forwarded cA.id cA.name (100000 - 1800) (dispatchLog cA (some true)) :=
  ⟨(c9_lead_time cD).2 rfl (some true),
   ((c9_lead_time cA).1 100000 rfl).2.2 (some true)⟩

/-- C10: every kept record enters the persisted set as the exact local copy
(all fields as loaded, no re-adjustment), and every persisted record is
either such a local copy or an adjusted new remote record — remote changes to
a known record's non-id fields are never propagated. -/
theorem c10_kept_frame (loc rem : List Contest) :
    (∀ c, c ∈ keptContests loc rem → c ∈ loc ∧ c ∈ persistedSet loc rem) ∧
    (∀ x, x ∈ persistedSet loc rem →
      x ∈ loc ∨ ∃ n, n ∈ newContests loc rem ∧ x = adjustContest n) := by
  constructor
  · intro c hc
    exact ⟨(mem_keptContests.mp hc).1, List.mem_append_left _ hc⟩
  · intro x hx
    rcases List.mem_append.mp hx with hk | hn
    · exact Or.inl (mem_keptContests.mp hk).1
    · rcases List.mem_map.mp hn with ⟨n, hn', rfl⟩
      exact Or.inr ⟨n, hn', rfl⟩

/-- Witness for C10: with local = [cA, cB] and remote = [cB2, cC], the kept
record cB appears in the persisted set exactly as the local copy. -/
theorem c10_witness :
    cB ∈ [cA, cB] ∧ cB ∈ persistedSet [cA, cB] [cB2, cC] :=
  (c10_kept_frame [cA, cB] [cB2, cC]).1 cB (by decide)

/-- Counterexample to C6 as stated: with the log file present and the read of
it failing, `log_error` panics (a process-terminating `.expect` in
src/local.rs line 59), so the log operation is itself the cause of process
termination rather than suppressing the failure. -/
theorem c6_counterexample :
    (logError ⟨some ["previous line"]⟩ ⟨true, false, false, false⟩ "ts" "m").isPanicked
      = true := rfl

/-- C6 amended: `log_error` never returns an error value to its caller — it
either succeeds or panics — but logging failures are not suppressed: the call
panics, terminating the process, exactly when one of the file operations on
its path (read of an existing file, create, open for append, write) fails;
with no I/O failure it appends the entry, truncating first when over the
threshold. -/
theorem c6_log_error_panics (fs : LogFS) (io : LogFailures) (ts msg : String) :
    (logError fs io ts msg).isPanicked
      = (match fs.file with
         | some lines =>
             io.readFails
               || (decide (lines.length > LOG_MAX_LINE_NUMBER) && io.createFails)
               || io.openFails || io.writeFails
         | none => io.createFails || io.writeFails) ∧
    logError fs LogFailures.none ts msg
      = .ok ⟨some (match fs.file with
          | some lines =>
              if lines.length > LOG_MAX_LINE_NUMBER then [ts ++ ": " ++ msg]
              else lines ++ [ts ++ ": " ++ msg]
          | none => [ts ++ ": " ++ msg])⟩ := by
  obtain ⟨f⟩ := fs
  obtain ⟨r, cr, o, w⟩ := io
  constructor
  · cases f with
    | none => cases cr <;> cases w <;> simp [logError, LogResult.isPanicked]
    | some lines =>
        by_cases h : lines.length > LOG_MAX_LINE_NUMBER
        · cases r <;> cases cr <;> cases o <;> cases w <;>
            simp [logError, LogResult.isPanicked, h]
        · cases r <;> cases cr <;> cases o <;> cases w <;>
            simp [logError, LogResult.isPanicked, h]
  · cases f with
    | none => simp [logError, LogFailures.none]
    | some lines =>
        by_cases h : lines.length > LOG_MAX_LINE_NUMBER <;>
          simp [logError, LogFailures.none, h]

theorem appendOne_lineCount_le (fs : LogFS) (m : String) :
    (appendOne fs m).lineCount ≤ LOG_MAX_LINE_NUMBER + 1 := by
  obtain ⟨f⟩ := fs
  cases f with
  | none => simp [appendOne, logError, LogFailures.none, LogFS.lineCount]
  | some lines =>
      by_cases h : lines.length > LOG_MAX_LINE_NUMBER
      · simp [appendOne, logError, LogFailures.none, LogFS.lineCount, h]
      · simp [appendOne, logError, LogFailures.none, LogFS.lineCount, h]
        omega

theorem appendAll_lineCount_le (msgs : List String) (fs : LogFS)
    (h : fs.lineCount ≤ LOG_MAX_LINE_NUMBER + 1) :
    (appendAll fs msgs).lineCount ≤ LOG_MAX_LINE_NUMBER + 1 := by
  induction msgs generalizing fs with
  | nil => simpa [appendAll] using h
  | cons m rest ih => exact ih (appendOne fs m) (appendOne_lineCount_le fs m)

/-- C7: when the log file's line count exceeds the threshold, the file is
truncated to empty before the next entry is appended (the append lands on an
otherwise empty file); consequently across arbitrarily many appends the line
count never exceeds the threshold plus one. -/
theorem c7_log_bound (fs : LogFS) (lines : List String) (ts msg : String)
    (msgs : List String) :
    (fs.file = some lines → lines.length > LOG_MAX_LINE_NUMBER →
      logError fs LogFailures.none ts msg = .ok ⟨some [ts ++ ": " ++ msg]⟩) ∧
    (msgs ≠ [] → (appendAll fs msgs).lineCount ≤ LOG_MAX_LINE_NUMBER + 1) := by
  constructor
  · intro hf hlen
    obtain ⟨f⟩ := fs
    cases hf
    simp [logError, LogFailures.none, hlen]
  · intro hne
    rcases msgs with _ | ⟨m, rest⟩
    · exact absurd rfl hne
    · exact appendAll_lineCount_le rest (appendOne fs m) (appendOne_lineCount_le fs m)

/-- Witness for C7: a log file of 1001 lines is over the threshold, so the
next append truncates and leaves only the new entry; appending two messages
to it keeps the line count within the bound. -/
theorem c7_witness :
    logError ⟨some (List.replicate 1001 "x")⟩ LogFailures.none "ts" "m"
        = .ok ⟨some ["ts" ++ ": " ++ "m"]⟩ ∧
      (appendAll ⟨some (List.replicate 1001 "x")⟩ ["m1", "m2"]).lineCount
        ≤ LOG_MAX_LINE_NUMBER + 1 :=
  ⟨(c7_log_bound ⟨some (List.replicate 1001 "x")⟩ (List.replicate 1001 "x")
      "ts" "m" ["m1", "m2"]).1 rfl (by rw [List.length_replicate]; decide),
   (c7_log_bound ⟨some (List.replicate 1001 "x")⟩ (List.replicate 1001 "x")
      "ts" "m" ["m1", "m2"]).2 (by simp)⟩

/-- Counterexample to C8 as stated: a cycle whose load and fetch succeed but
whose save fails still exits with code 0 (src/main.rs lines 55-58 only log
the save failure and fall off the end of `main`), not a non-zero code. -/
theorem c8_counterexample :
    ¬ ((runMain (.ok []) (.ok [cC]) (fun _ => some true) false).saveSucceeded = false
        → (runMain (.ok []) (.ok [cC]) (fun _ => some true) false).exitCode ≠ 0) := by
  intro h
  exact h rfl rfl

/-- C8 amended: when the persistence step fails, the failure is logged and the
process exits with code 0 — a save failure does not change the exit code; a
fully completed cycle exits 0, and individual notification failures do not
affect the exit code. -/
theorem c8_exit_code (loc rem : List Contest)
    (cmdStatus cmdStatus' : Contest → Option Bool) (saveOk : Bool) :
    (runMain (.ok loc) (.ok rem) cmdStatus saveOk).exitCode = 0 ∧
    (saveOk = false →
      "Failed to save local contests atomically"
        ∈ (runMain (.ok loc) (.ok rem) cmdStatus saveOk).logs) ∧
    (runMain (.ok loc) (.ok rem) cmdStatus saveOk).exitCode
      = (runMain (.ok loc) (.ok rem) cmdStatus' saveOk).exitCode := by
  refine ⟨?_, ?_, ?_⟩
  · cases saveOk <;> simp [runMain]
  · rintro rfl
    simp [runMain]
  · cases saveOk <;> simp [runMain]

/-- Witness for C8 amended: a concrete failing save has its failure message
in the logs while the exit code stays 0. -/
theorem c8_witness :
    "Failed to save local contests atomically"
      ∈ (runMain (.ok [cA]) (.ok [cA, cC]) (fun _ => some false) false).logs :=
  (c8_exit_code [cA] [cA, cC] (fun _ => some false) (fun _ => some true) false).2.1 rfl

end CFReminder
